import Mathlib

/-!
Verification development for the PayFlowAI bank-reconciliation core
(`services/reconciliation`): statement parsing, fuzzy match scoring and the
automatic-matching orchestration.

Modelling conventions:
* Money amounts and scores are `ℚ` (the Python code computes on `Decimal`
  inputs and `float` score constants; arithmetic is modelled exactly).
* Text is modelled as `List Char` (called `Str` below); Python string
  operations used by the code (`split`, `strip`, `lower`, `in`, `replace`,
  `endswith`) are given structural definitions on `List Char`.
* Calls into external libraries (fuzzywuzzy ratios, difflib's
  `SequenceMatcher.ratio`, the `re`-based reference-token extraction) are
  parameters of the model (`SimilarityOracles`); theorems that need their
  ranges assume only the documented `[0,1]` bounds.
* Dates are proleptic-Gregorian calendar dates; day differences are taken
  via a Julian-day-number conversion, matching Python `date` subtraction.
-/

/-- Text is modelled as a list of characters. -/
abbrev Str := List Char

/-- Python `needle in haystack` (substring containment) on `Str`. -/
def hasSubstr (pat : Str) : Str → Bool
  | [] => pat.isEmpty
  | s@(_ :: rest) => pat.isPrefixOf s || hasSubstr pat rest

/-- Python `str.split(sep)` for a one-character separator: splits on every
occurrence, keeping empty fields (`"".split(sep) == [""]`). -/
def splitOnChar (sep : Char) : Str → List Str
  | [] => [[]]
  | c :: cs =>
    let r := splitOnChar sep cs
    if c = sep then [] :: r
    else
      match r with
      | h :: t => (c :: h) :: t
      | [] => [[c]]

/-- Whitespace characters recognised by Python `str.strip` / `str.split()`. -/
def isPySpace (c : Char) : Bool :=
  c = ' ' || c = '\t' || c = '\n' || c = '\r'

/-- Python `str.strip()`. -/
def pyStrip (s : Str) : Str :=
  ((s.dropWhile isPySpace).reverse.dropWhile isPySpace).reverse

/-- ASCII lowering plus the uppercase accented vowels handled by Python
`str.lower` that the matcher's accent table can subsequently fold. -/
def pyLowerChar (c : Char) : Char :=
  if 'A' ≤ c ∧ c ≤ 'Z' then Char.ofNat (c.toNat + 32)
  else
    match c with
    | 'Á' => 'á' | 'À' => 'à' | 'Ã' => 'ã' | 'Â' => 'â'
    | 'É' => 'é' | 'Ê' => 'ê'
    | 'Í' => 'í' | 'Î' => 'î'
    | 'Ó' => 'ó' | 'Ô' => 'ô' | 'Õ' => 'õ'
    | 'Ú' => 'ú' | 'Û' => 'û'
    | 'Ç' => 'ç'
    | _ => c

/-- Python `str.lower()` on `Str`. -/
def pyLower (s : Str) : Str := s.map pyLowerChar

/-- Fold a digit list into the natural number it denotes (base 10). -/
def natOfDigits (l : Str) : ℕ :=
  l.foldl (fun n c => 10 * n + (c.toNat - 48)) 0

/-- All characters are ASCII digits. -/
def allDigits (l : Str) : Bool := l.all Char.isDigit

/-- The unsigned part of Python `float(s)`: digits with at most one
decimal point and at least one digit overall. -/
def pyFloatBody (body : Str) : Option ℚ :=
  match splitOnChar '.' body with
  | [ip] =>
    if ip ≠ [] ∧ allDigits ip then some ((natOfDigits ip : ℚ)) else none
  | [ip, fp] =>
    if (ip ≠ [] ∨ fp ≠ []) ∧ allDigits ip ∧ allDigits fp then
      some ((natOfDigits ip : ℚ) + (natOfDigits fp : ℚ) / 10 ^ fp.length)
    else none
  | _ => none

/-- Python `float(s)` for the shapes the amount parser produces: an
optional sign followed by digits with at most one decimal point. -/
def pyFloat (s : Str) : Option ℚ :=
  if s = [] then none
  else if s.headI = '-' then (pyFloatBody s.tail).map Neg.neg
  else if s.headI = '+' then pyFloatBody s.tail
  else pyFloatBody s

/-! ### `StatementParser._parse_amount`
Source: `services/reconciliation/app/processors/statement_parser.py`,
lines 314-337. Brazilian-locale monetary parsing. -/

/-- The character filter `re.sub(r'[^\d\,\.\-\+]', '', ...)`. -/
def cleanAmountChars (s : Str) : Str :=
  s.filter (fun c => c.isDigit || c = ',' || c = '.' || c = '-' || c = '+')

/-- The separator-resolution step of `_parse_amount` on the cleaned
string: with both `.` and `,` present, drop the dots and turn the comma
into a decimal point; with only commas, a single comma followed by at most
two digits is the decimal separator, otherwise commas are thousands
separators and are dropped. -/
def resolveDecimalSeparators (amount_clean : Str) : Str :=
  if amount_clean.contains ',' ∧ amount_clean.contains '.' then
    (amount_clean.filter (· ≠ '.')).map (fun c => if c = ',' then '.' else c)
  else if amount_clean.contains ',' then
    let parts := splitOnChar ',' amount_clean
    if parts.length = 2 ∧ (parts.getD 1 []).length ≤ 2 then
      amount_clean.map (fun c => if c = ',' then '.' else c)
    else amount_clean.filter (· ≠ ',')
  else amount_clean

/-- `StatementParser._parse_amount`: clean, resolve separators, then
convert with `float`; `none` models the raised `ValueError`. -/
def parse_amount (s : Str) : Option ℚ :=
  pyFloat (resolveDecimalSeparators (cleanAmountChars s))

/-! ### Calendar dates
Python `datetime.date` values; subtraction `(d1 - d2).days` is modelled by
the difference of Julian day numbers. -/

/-- A Python `datetime.date`. -/
structure PyDate where
  year : ℕ
  month : ℕ
  day : ℕ
  deriving DecidableEq, Repr

/-- Gregorian leap year. -/
def isLeapYear (y : ℕ) : Bool :=
  (y % 4 = 0 && y % 100 ≠ 0) || y % 400 = 0

/-- Number of days in a month. -/
def daysInMonth (y m : ℕ) : ℕ :=
  if m = 2 then (if isLeapYear y then 29 else 28)
  else if m = 4 ∨ m = 6 ∨ m = 9 ∨ m = 11 then 30
  else 31

/-- Julian day number of a Gregorian date (all intermediate quantities are
nonnegative, so truncated and floored division agree). -/
def PyDate.toOrdinal (dt : PyDate) : ℤ :=
  let a : ℤ := (14 - (dt.month : ℤ)) / 12
  let y : ℤ := (dt.year : ℤ) + 4800 - a
  let m : ℤ := (dt.month : ℤ) + 12 * a - 3
  (dt.day : ℤ) + (153 * m + 2) / 5 + 365 * y + y / 4 - y / 100 + y / 400 - 32045

/-- Python `(d1 - d2).days`. -/
def dateDaysDiff (d1 d2 : PyDate) : ℤ := d1.toOrdinal - d2.toOrdinal

/-! ### `StatementParser._parse_date`
Source: `statement_parser.py`, lines 282-312. Tries the seven `strptime`
patterns in source order on the cleaned string; two-digit years follow
`strptime`'s 1969-2068 pivot; a parsed year below 1950 gains a century. -/

/-- The character filter `re.sub(r'[^\d\/\-\.]', '', ...)`. -/
def cleanDateChars (s : Str) : Str :=
  s.filter (fun c => c.isDigit || c = '/' || c = '-' || c = '.')

/-- One `strptime` date pattern: field separator, whether the year leads
(`%Y-%m-%d` style) and whether the year is two-digit (`%y`). -/
structure DatePattern where
  sep : Char
  yearLeads : Bool
  shortYear : Bool

/-- The seven patterns of `_parse_date`, in source order. -/
def date_patterns : List DatePattern :=
  [⟨'/', false, false⟩, ⟨'-', false, false⟩, ⟨'.', false, false⟩,
   ⟨'-', true, false⟩, ⟨'/', true, false⟩,
   ⟨'/', false, true⟩, ⟨'-', false, true⟩]

/-- A numeric `strptime` field: nonempty, all digits, at most `maxLen`
characters wide. -/
def parseNatField (s : Str) (maxLen : ℕ) : Option ℕ :=
  if s ≠ [] ∧ s.length ≤ maxLen ∧ allDigits s then some (natOfDigits s) else none

/-- Attempt one `strptime` pattern, validating calendar ranges as the
`datetime` constructor does. -/
def tryDatePattern (p : DatePattern) (s : Str) : Option PyDate :=
  match splitOnChar p.sep s with
  | [a, b, c] =>
    let ys := if p.yearLeads then a else c
    let ds := if p.yearLeads then c else a
    match parseNatField ds 2, parseNatField b 2,
          parseNatField ys (if p.shortYear then 2 else 4) with
    | some d, some m, some yRaw =>
      let y := if p.shortYear then (if yRaw ≤ 68 then 2000 + yRaw else 1900 + yRaw)
               else yRaw
      if 1 ≤ y ∧ 1 ≤ m ∧ m ≤ 12 ∧ 1 ≤ d ∧ d ≤ daysInMonth y m then
        some ⟨y, m, d⟩
      else none
    | _, _, _ => none
  | _ => none

/-- `StatementParser._parse_date`; `none` models the raised `ValueError`. -/
def parse_date (s : Str) : Option PyDate :=
  let cleaned := cleanDateChars s
  date_patterns.findSome? fun p =>
    (tryDatePattern p cleaned).map fun dt =>
      if dt.year < 1950 then { dt with year := dt.year + 100 } else dt

/-! ### Normalized bank transactions and match candidates
Data shapes of `reconciliation_models.BankTransaction` and of the AR/AP
invoice dictionaries consumed by the matcher. The matcher resolves the
candidate date through `_parse_candidate_date` (`due_date`, then
`invoice_date`, `payment_date`, `created_at`); the model stores the
resolved optional date. -/

/-- A normalized bank-statement transaction. -/
structure Txn where
  id : Str
  date : PyDate
  amount : ℚ
  description : Str
  txnType : Str
  reference : Str
  source : Str
  deriving DecidableEq, Repr

/-- An AR/AP invoice record as seen by the matcher. -/
structure Candidate where
  id : Str
  amount : ℚ
  resolvedDate : Option PyDate
  customer_name : Str
  supplier_name : Str
  invoice_number : Str
  deriving DecidableEq, Repr

/-! ### `StatementParser._parse_csv`
Source: `statement_parser.py`, lines 140-204 and 243-280. The pandas
`read_csv` layer is modelled for plain unquoted CSV text: lines split on
newlines (blank lines skipped, as pandas does), cells split on commas, and
`str(cell)` giving the cell text back. -/

/-- Column-role assignment produced by `_detect_csv_columns`. -/
structure ColumnMapping where
  dateIdx : ℕ
  amountIdx : ℕ
  descIdx : Option ℕ
  refIdx : Option ℕ
  deriving DecidableEq, Repr

/-- First column whose (lowered, stripped) header contains one of the
synonym substrings. -/
def findCol (synonyms : List Str) (columns : List Str) : Option ℕ :=
  columns.findIdx? fun col => synonyms.any fun p => hasSubstr p col

/-- `StatementParser._detect_csv_columns`: requires at least a date and an
amount column. -/
def detect_csv_columns (columns : List Str) : Option ColumnMapping :=
  let dateCol := findCol ["data".toList, "date".toList, "dt".toList,
      "dt_transacao".toList, "dt_movimento".toList] columns
  let amountCol := findCol ["valor".toList, "amount".toList, "vlr".toList,
      "vl_transacao".toList, "credito".toList, "debito".toList] columns
  let descCol := findCol ["descricao".toList, "description".toList, "desc".toList,
      "historico".toList, "memo".toList, "observacao".toList] columns
  let refCol := findCol ["referencia".toList, "reference".toList, "ref".toList,
      "documento".toList, "doc".toList] columns
  match dateCol, amountCol with
  | some d, some a => some ⟨d, a, descCol, refCol⟩
  | _, _ => none

/-- Zero-pad a number to two digits (for `strftime('%Y%m%d')`). -/
def pad2 (n : ℕ) : Str :=
  if n < 10 then '0' :: (Nat.toDigits 10 n) else Nat.toDigits 10 n

/-- `strftime('%Y%m%d')` for the transaction id. -/
def dateCompact (dt : PyDate) : Str :=
  Nat.toDigits 10 dt.year ++ pad2 dt.month ++ pad2 dt.day

/-- The body of the `_parse_csv` row loop. Rows whose date or amount fail
to parse raise and are skipped (`none`); a missing description column makes
the `row['']` lookup raise a `KeyError`, also skipping the row. The
`abs(amount)` float-repr suffix of the source's id is omitted: no claim
depends on transaction ids. -/
def csvRowToTxn (mp : ColumnMapping) (index : ℕ) (cells : List Str) : Option Txn :=
  match cells.get? mp.dateIdx, cells.get? mp.amountIdx with
  | some dateCell, some amountCell =>
    match mp.descIdx.bind cells.get? with
    | none => none
    | some descCell =>
      match parse_date (pyStrip dateCell), parse_amount (pyStrip amountCell) with
      | some dt, some amount =>
        let desc := pyStrip descCell
        some
          { id := "csv_".toList ++ Nat.toDigits 10 index ++ ['_'] ++ dateCompact dt
            date := dt
            amount := amount
            description := if desc ≠ [] then desc
                           else "Transacao CSV ".toList ++ Nat.toDigits 10 index
            txnType := if 0 < amount then "credit".toList else "debit".toList
            reference := pyStrip ((mp.refIdx.bind cells.get?).getD [])
            source := "csv".toList }
      | _, _ => none
  | _, _ => none

/-- The `for index, row in df.iterrows()` loop of `_parse_csv`, with the
running row index. -/
def parseRowsFrom (mp : ColumnMapping) : ℕ → List (List Str) → List Txn
  | _, [] => []
  | i, r :: rs =>
    match csvRowToTxn mp i r with
    | some t => t :: parseRowsFrom mp (i + 1) rs
    | none => parseRowsFrom mp (i + 1) rs

/-- `StatementParser._parse_csv` on decoded file text. `Except.error`
models the raised `ValueError`s; the pandas `EmptyDataError` for content
with no header line carries pandas' message. -/
def parse_csv_file (content : Str) : Except Str (List Txn) :=
  match (splitOnChar '\n' content).filter (· ≠ []) with
  | [] => Except.error "No columns to parse from file".toList
  | header :: dataLines =>
    let columns := (splitOnChar ',' header).map fun c => pyStrip (pyLower c)
    match detect_csv_columns columns with
    | none => Except.error "Nao foi possivel identificar as colunas do CSV".toList
    | some mp =>
      Except.ok (parseRowsFrom mp 0 (dataLines.map (splitOnChar ',')))

/-! ### `StatementParser._detect_format` and `validate_statement_file`
Source: `statement_parser.py`, lines 71-95 and 339-371. File content is
modelled as decoded text; the byte length of the upload is the text
length. -/

/-- `StatementParser._detect_format`. -/
def detect_format (filename : Str) (content : Str) : Str :=
  let fl := pyLower filename
  if ".ofx".toList.isSuffixOf fl then "ofx".toList
  else if ".csv".toList.isSuffixOf fl then "csv".toList
  else if ".pdf".toList.isSuffixOf fl then "pdf".toList
  else
    let head := content.take 1000
    if hasSubstr "<OFX>".toList head || hasSubstr "OFXHEADER".toList head then "ofx".toList
    else if head.contains ',' && head.contains '\n' then "csv".toList
    else if hasSubstr "%PDF".toList head then "pdf".toList
    else "csv".toList

/-- `StatementParser.get_supported_formats`; OFX support depends on the
optional `ofxparse` import. -/
def get_supported_formats (ofxAvailable : Bool) : List Str :=
  "csv".toList :: "pdf".toList :: (if ofxAvailable then ["ofx".toList] else [])

/-- Outcome of `validate_statement_file`. -/
structure ValidationOutcome where
  valid : Bool
  errorMsg : Option Str
  deriving DecidableEq, Repr

/-- `StatementParser.validate_statement_file`: empty file, oversized file
and unsupported format each produce their distinct error message. -/
def validate_statement_file (ofxAvailable : Bool) (filename content : Str) : ValidationOutcome :=
  let file_format := detect_format filename content
  let file_size := content.length
  if file_size = 0 then ⟨false, some "Arquivo vazio".toList⟩
  else if 50 * 1024 * 1024 < file_size then
    ⟨false, some "Arquivo muito grande (maximo 50MB)".toList⟩
  else if ¬ (file_format ∈ get_supported_formats ofxAvailable) then
    ⟨false, some ("Formato nao suportado: ".toList ++ file_format)⟩
  else ⟨true, none⟩

/-- An uploaded statement file. -/
structure UploadFile where
  filename : Str
  content : Str
  deriving DecidableEq, Repr

/-- The two hard-coded transactions the PDF branch of the parser
"extracts" (`_parse_pdf`, lines 206-241). -/
def pdf_stub_transactions : List Txn :=
  [{ id := "pdf_001_20240118".toList, date := ⟨2024, 1, 18⟩, amount := 1500,
     description := "TED RECEBIDA EMPRESA ABC LTDA".toList,
     txnType := "credit".toList, reference := "TED001".toList, source := "pdf".toList },
   { id := "pdf_002_20240119".toList, date := ⟨2024, 1, 19⟩, amount := -850,
     description := "PAGAMENTO FORNECEDOR XYZ".toList,
     txnType := "debit".toList, reference := "PAG001".toList, source := "pdf".toList }]

/-- `StatementParser.parse_statement`: detect the format, dispatch to the
format parser. The OFX branch needs the optional `ofxparse` library and is
modelled as unavailable (its `ValueError` path); no claim exercises it. -/
def parse_statement (f : UploadFile) : Except Str (List Txn) :=
  let fmt := detect_format f.filename f.content
  if fmt = "ofx".toList then
    Except.error "Parser OFX nao disponivel".toList
  else if fmt = "csv".toList then parse_csv_file f.content
  else if fmt = "pdf".toList then Except.ok pdf_stub_transactions
  else Except.error ("Formato nao suportado: ".toList ++ fmt)

/-! ### Configuration
Source: `services/reconciliation/app/config.py` (`Settings`) and
`FuzzyMatcher.__init__` (`fuzzy_matcher.py`, lines 21-26), which divides
the percentage tolerance by 100. -/

/-- The recognized configuration surface with its `config.py` defaults. -/
structure Settings where
  similarity_threshold : ℚ := 8 / 10
  auto_match_threshold : ℚ := 95 / 100
  manual_review_threshold : ℚ := 7 / 10
  amount_tolerance_percent : ℚ := 2
  amount_tolerance_absolute : ℚ := 10
  date_tolerance_before : ℤ := 5
  date_tolerance_after : ℤ := 10
  deriving DecidableEq, Repr

/-- The tolerance state held by a `FuzzyMatcher` instance. -/
structure FuzzyMatcher where
  amount_tolerance_percent : ℚ
  amount_tolerance_absolute : ℚ
  date_tolerance_before : ℤ
  date_tolerance_after : ℤ
  similarity_threshold : ℚ
  deriving DecidableEq, Repr

/-- `FuzzyMatcher.__init__`: copies the settings, converting the
percentage tolerance to a fraction. -/
def FuzzyMatcher.ofSettings (s : Settings) : FuzzyMatcher :=
  { amount_tolerance_percent := s.amount_tolerance_percent / 100
    amount_tolerance_absolute := s.amount_tolerance_absolute
    date_tolerance_before := s.date_tolerance_before
    date_tolerance_after := s.date_tolerance_after
    similarity_threshold := s.similarity_threshold }

/-- The default-configured settings instance (`config.settings`). -/
def defaultSettings : Settings := {}

/-- The matcher built from the default settings. -/
def defaultMatcher : FuzzyMatcher := FuzzyMatcher.ofSettings defaultSettings

/-! ### External similarity libraries
`_calculate_description_score` calls fuzzywuzzy's four ratios and
difflib's `SequenceMatcher.ratio`; `_calculate_reference_score` reuses
`fuzz.ratio` and extracts tokens with `_extract_reference_numbers`
(regular expressions over `re`). These library-backed functions are
parameters of the model; all five ratios are documented to land in
`[0, 1]` after the `/ 100.0` scaling, captured by `OraclesBounded`. -/

/-- The similarity primitives the scorer calls, already scaled to `[0,1]`:
`fuzz.ratio`, `fuzz.partial_ratio` (substring), `fuzz.token_sort_ratio`,
`fuzz.token_set_ratio`, `SequenceMatcher.ratio`, and the regex-based
reference-token extraction. -/
structure SimilarityOracles where
  ratioFull : Str → Str → ℚ
  ratioSubstr : Str → Str → ℚ
  ratioTokenSort : Str → Str → ℚ
  ratioTokenSet : Str → Str → ℚ
  ratioSeq : Str → Str → ℚ
  extractRefs : Str → List Str

/-- The documented ranges of the five similarity ratios. -/
def OraclesBounded (o : SimilarityOracles) : Prop :=
  ∀ s1 s2 : Str,
    (0 ≤ o.ratioFull s1 s2 ∧ o.ratioFull s1 s2 ≤ 1) ∧
    (0 ≤ o.ratioSubstr s1 s2 ∧ o.ratioSubstr s1 s2 ≤ 1) ∧
    (0 ≤ o.ratioTokenSort s1 s2 ∧ o.ratioTokenSort s1 s2 ≤ 1) ∧
    (0 ≤ o.ratioTokenSet s1 s2 ∧ o.ratioTokenSet s1 s2 ≤ 1) ∧
    (0 ≤ o.ratioSeq s1 s2 ∧ o.ratioSeq s1 s2 ≤ 1)

/-- Oracle instance returning 0 everywhere (a valid fuzzywuzzy behaviour
for disjoint strings); used to instantiate hypotheses concretely. -/
def zeroOracles : SimilarityOracles :=
  ⟨fun _ _ => 0, fun _ _ => 0, fun _ _ => 0, fun _ _ => 0, fun _ _ => 0, fun _ => []⟩

/-! ### `FuzzyMatcher` scoring
Source: `fuzzy_matcher.py`, lines 128-353. -/

/-- `FuzzyMatcher._calculate_amount_score` (lines 128-148). -/
def calculate_amount_score (m : FuzzyMatcher) (txn_amount candidate_amount : ℚ) : ℚ :=
  if candidate_amount = 0 then 0
  else
    let abs_diff := |txn_amount - candidate_amount|
    let percent_diff := abs_diff / candidate_amount
    if abs_diff = 0 then 1
    else if abs_diff ≤ m.amount_tolerance_absolute then 95 / 100
    else if percent_diff ≤ m.amount_tolerance_percent then
      max 0 (1 - percent_diff / m.amount_tolerance_percent * (3 / 10))
    else
      max 0 (3 / 10 - min (3 / 10) percent_diff)

/-- `FuzzyMatcher._calculate_date_score` (lines 150-169). -/
def calculate_date_score (m : FuzzyMatcher) (txn_date : PyDate)
    (candidate_date : Option PyDate) : ℚ :=
  match candidate_date with
  | none => 1 / 2
  | some cd =>
    let days_diff : ℤ := |dateDaysDiff txn_date cd|
    if days_diff = 0 then 1
    else if days_diff ≤ 3 then 9 / 10
    else if days_diff ≤ 7 then 8 / 10
    else if days_diff ≤ m.date_tolerance_after then
      max 0 (8 / 10 - ((days_diff : ℚ) - 7) * (1 / 10))
    else
      max 0 (2 / 10 - min (2 / 10) ((days_diff : ℚ) * (1 / 100)))

/-- The accent-folding table of `_normalize_description` (lines 259-266). -/
def accentFold (c : Char) : Char :=
  match c with
  | 'á' | 'à' | 'ã' | 'â' => 'a'
  | 'é' | 'ê' => 'e'
  | 'í' | 'î' => 'i'
  | 'ó' | 'ô' | 'õ' => 'o'
  | 'ú' | 'û' => 'u'
  | 'ç' => 'c'
  | _ => c

/-- Python regex `\w` (word character), for the texts at hand. -/
def isWordChar (c : Char) : Bool := c.isAlphanum || c = '_'

/-- `FuzzyMatcher._normalize_description` (lines 249-277): lowercase,
fold accents, blank out the remaining non-word characters, collapse
whitespace runs. -/
def normalize_description (description : Str) : Str :=
  if description = [] then []
  else
    let folded := (pyLower description).map accentFold
    let blanked := folded.map fun c => if isWordChar c || isPySpace c then c else ' '
    let words := (blanked.splitOnP (fun c => isPySpace c)).filter (· ≠ [])
    (words.intersperse " ".toList).flatten

/-- The shared-keyword list of `_calculate_keyword_bonus` (lines 236-239). -/
def important_keywords : List Str :=
  ["ted".toList, "pix".toList, "transferencia".toList, "pagamento".toList,
   "recebimento".toList, "boleto".toList, "fatura".toList, "nota".toList,
   "fiscal".toList, "nf".toList]

/-- `FuzzyMatcher._calculate_keyword_bonus` (lines 232-247): +0.05 per
keyword present in both lowered strings, capped at 0.2. -/
def calculate_keyword_bonus (txn_desc candidate_desc : Str) : ℚ :=
  let shared := important_keywords.filter fun kw =>
    hasSubstr kw (pyLower txn_desc) && hasSubstr kw (pyLower candidate_desc)
  min (2 / 10) ((shared.length : ℚ) * (5 / 100))

/-- `FuzzyMatcher._calculate_description_score` (lines 171-201): best of
the five similarity ratios plus the capped keyword bonus, clamped to 1;
a missing description on either side scores 0.3. -/
def calculate_description_score (o : SimilarityOracles) (txn_desc candidate_desc : Str) : ℚ :=
  if txn_desc = [] ∨ candidate_desc = [] then 3 / 10
  else
    let best := max (o.ratioFull txn_desc candidate_desc)
      (max (o.ratioSubstr txn_desc candidate_desc)
        (max (o.ratioTokenSort txn_desc candidate_desc)
          (max (o.ratioTokenSet txn_desc candidate_desc)
            (o.ratioSeq txn_desc candidate_desc))))
    min 1 (best + calculate_keyword_bonus txn_desc candidate_desc)

/-- Inner loop of `_calculate_reference_score` over candidate tokens:
exact token match returns 1.0, long tokens with ratio above 0.8 return
that ratio, otherwise keep scanning. -/
def refMatchInner (ratio : Str → Str → ℚ) (t : Str) : List Str → Option ℚ
  | [] => none
  | c :: cs =>
    if t = c then some 1
    else if 4 ≤ t.length ∧ 4 ≤ c.length then
      let similarity := ratio t c
      if 8 / 10 < similarity then some similarity else refMatchInner ratio t cs
    else refMatchInner ratio t cs

/-- Outer loop of `_calculate_reference_score` over transaction tokens. -/
def refMatchOuter (ratio : Str → Str → ℚ) (cand_ref : List Str) : List Str → Option ℚ
  | [] => none
  | t :: ts =>
    match refMatchInner ratio t cand_ref with
    | some v => some v
    | none => refMatchOuter ratio cand_ref ts

/-- `FuzzyMatcher._calculate_reference_score` (lines 203-230): tokens are
extracted from the transaction description+reference and from the
candidate invoice number+id; no tokens on either side is neutral 0.5. -/
def calculate_reference_score (o : SimilarityOracles) (txn : Txn) (candidate : Candidate) : ℚ :=
  let txn_ref := o.extractRefs (txn.description ++ [' '] ++ txn.reference)
  let candidate_ref := o.extractRefs (candidate.invoice_number ++ [' '] ++ candidate.id)
  if txn_ref = [] ∨ candidate_ref = [] then 1 / 2
  else (refMatchOuter o.ratioFull candidate_ref txn_ref).getD 0

/-- `FuzzyMatcher._determine_primary_reason` (lines 327-353). Python's
`max` over the labelled factors keeps the first of equal maxima. -/
def determine_primary_reason (amount_score date_score desc_score ref_score : ℚ) : Str :=
  let scores : List (Str × ℚ) :=
    [("valor_exato".toList, if 95 / 100 ≤ amount_score then amount_score else 0),
     ("valor_similar".toList,
       if 8 / 10 ≤ amount_score ∧ amount_score < 95 / 100 then amount_score else 0),
     ("data_exata".toList, if 95 / 100 ≤ date_score then date_score else 0),
     ("data_proxima".toList,
       if 8 / 10 ≤ date_score ∧ date_score < 95 / 100 then date_score else 0),
     ("descricao_similar".toList, if 8 / 10 ≤ desc_score then desc_score else 0),
     ("referencia_match".toList, if 8 / 10 ≤ ref_score then ref_score else 0)]
  let best := scores.foldl (fun acc p => if acc.2 < p.2 then p else acc) ([], 0)
  if 0 < best.2 then best.1
  else if 7 / 10 ≤ amount_score ∧ 7 / 10 ≤ date_score then "valor_e_data".toList
  else if 7 / 10 ≤ amount_score ∧ 7 / 10 ≤ desc_score then "valor_e_descricao".toList
  else if 7 / 10 ≤ desc_score ∧ 7 / 10 ≤ date_score then "descricao_e_data".toList
  else "combinacao_fatores".toList

/-- The score record assembled by `_calculate_match_score`. -/
structure ScoreData where
  total_score : ℚ
  amount_score : ℚ
  date_score : ℚ
  description_score : ℚ
  reference_score : ℚ
  primary_reason : Str
  deriving DecidableEq, Repr

/-- `FuzzyMatcher._calculate_match_score` (lines 75-126): the four factor
scores and the weighted total (40/25/25/10). -/
def calculate_match_score (m : FuzzyMatcher) (o : SimilarityOracles) (txn : Txn)
    (candidate : Candidate) (txn_amount : ℚ) (txn_desc : Str) : ScoreData :=
  let candidate_desc := normalize_description
    (candidate.customer_name ++ [' '] ++ candidate.supplier_name ++ [' '] ++
      candidate.invoice_number)
  let amount_score := calculate_amount_score m txn_amount candidate.amount
  let date_score := calculate_date_score m txn.date candidate.resolvedDate
  let desc_score := calculate_description_score o txn_desc candidate_desc
  let ref_score := calculate_reference_score o txn candidate
  { total_score := amount_score * (40 / 100) + date_score * (25 / 100) +
      desc_score * (25 / 100) + ref_score * (10 / 100)
    amount_score := amount_score
    date_score := date_score
    description_score := desc_score
    reference_score := ref_score
    primary_reason :=
      determine_primary_reason amount_score date_score desc_score ref_score }

/-- A `find_best_match` result (`invoice`, `confidence`, `reason`). -/
structure BestMatch where
  invoice : Candidate
  confidence : ℚ
  reason : Str
  deriving DecidableEq, Repr

/-- One iteration of the `find_best_match` candidate loop: replace the
accumulator when the score strictly beats the best so far and reaches the
similarity threshold. -/
def fbmStep (m : FuzzyMatcher) (o : SimilarityOracles) (txn : Txn) (txn_amount : ℚ)
    (txn_desc : Str) (acc : Option BestMatch × ℚ) (candidate : Candidate) :
    Option BestMatch × ℚ :=
  let score_data := calculate_match_score m o txn candidate txn_amount txn_desc
  if acc.2 < score_data.total_score ∧ m.similarity_threshold ≤ score_data.total_score then
    (some ⟨candidate, score_data.total_score, score_data.primary_reason⟩,
      score_data.total_score)
  else acc

/-- `FuzzyMatcher.find_best_match` (lines 28-73): fold the candidate list
starting from no match and best score 0.0. -/
def find_best_match (m : FuzzyMatcher) (o : SimilarityOracles) (txn : Txn)
    (candidates : List Candidate) : Option BestMatch :=
  (candidates.foldl
    (fbmStep m o txn |txn.amount| (normalize_description txn.description))
    (none, 0)).1

/-- The weighted total score `find_best_match` computes for one
transaction/candidate pair. -/
def totalScoreOf (m : FuzzyMatcher) (o : SimilarityOracles) (txn : Txn)
    (candidate : Candidate) : ℚ :=
  (calculate_match_score m o txn candidate |txn.amount|
    (normalize_description txn.description)).total_score

/-! ### `ReconciliationEngine`
Source: `reconciliation_engine.py`, lines 31-87 (`process_bank_statement`),
168-211 (`_perform_automatic_matching`) and 302-362 (report assembly;
monetary totals and timestamps not needed by any claim are omitted). -/

/-- A recorded `TransactionMatch` (the `matched_at` wall-clock timestamp is
not modelled). -/
structure TransactionMatch where
  transaction_id : Str
  invoice_id : Str
  confidence_score : ℚ
  match_type : Str
  matched_amount : ℚ
  match_reason : Str
  deriving DecidableEq, Repr

/-- The body of the `_perform_automatic_matching` loop for one
transaction: positive amounts search the AR candidates (`receivable`),
the rest search the AP candidates (`payable`); a match is recorded only
when the best confidence reaches `auto_match_threshold`. -/
def match_for_txn (m : FuzzyMatcher) (o : SimilarityOracles) (auto_match_threshold : ℚ)
    (invoices_ar invoices_ap : List Candidate) (txn : Txn) : Option TransactionMatch :=
  let sideCandidates := if 0 < txn.amount then invoices_ar else invoices_ap
  let match_type := if 0 < txn.amount then "receivable".toList else "payable".toList
  match find_best_match m o txn sideCandidates with
  | some best =>
    if auto_match_threshold ≤ best.confidence then
      some ⟨txn.id, best.invoice.id, best.confidence, match_type, |txn.amount|,
        best.reason⟩
    else none
  | none => none

/-- `ReconciliationEngine._perform_automatic_matching`: the per-transaction
loop, accumulating recorded matches in order (failing transactions are
skipped). -/
def perform_automatic_matching (m : FuzzyMatcher) (o : SimilarityOracles)
    (auto_match_threshold : ℚ) (transactions : List Txn)
    (invoices_ar invoices_ap : List Candidate) : List TransactionMatch :=
  transactions.filterMap (match_for_txn m o auto_match_threshold invoices_ar invoices_ap)

/-- The reconciliation report fields the claims mention (the remaining
summary totals are straightforward aggregates and are omitted). -/
structure Report where
  bank_account_id : Str
  total_transactions : ℕ
  matched_count : ℕ
  unmatched_count : ℕ
  matchList : List TransactionMatch
  unmatched_transactions : List Txn
  deriving DecidableEq, Repr

/-- `ReconciliationEngine._generate_reconciliation_report` (restricted to
the modelled fields; the source's `matches` field is called `matchList`). -/
def generate_reconciliation_report (bank_account_id : Str) (transactions : List Txn)
    (recorded : List TransactionMatch) : Report :=
  { bank_account_id := bank_account_id
    total_transactions := transactions.length
    matched_count := recorded.length
    unmatched_count := transactions.length - recorded.length
    matchList := recorded
    unmatched_transactions :=
      transactions.filter fun t => ¬ recorded.any fun mt => mt.transaction_id = t.id }

/-- Result of a `process_bank_statement` run: either the error dictionary
(`{"error": ...}`) or a report. -/
inductive EngineResult where
  | errorResult (msg : Str)
  | report (r : Report)
  deriving DecidableEq, Repr

/-- `ReconciliationEngine.process_bank_statement`: parse the statement
(no file-level validation happens first), then run automatic matching and
assemble the report. Candidate retrieval and discrepancy detection are
external collaborators; the candidate sets are inputs here. -/
def process_bank_statement (m : FuzzyMatcher) (o : SimilarityOracles)
    (auto_match_threshold : ℚ) (f : UploadFile) (bank_account_id : Str)
    (invoices_ar invoices_ap : List Candidate) : EngineResult :=
  match parse_statement f with
  | Except.error e => EngineResult.errorResult e
  | Except.ok [] =>
    EngineResult.errorResult "Nenhuma transacao encontrada no extrato".toList
  | Except.ok transactions =>
    let recorded := perform_automatic_matching m o auto_match_threshold transactions
      invoices_ar invoices_ap
    EngineResult.report
      (generate_reconciliation_report bank_account_id transactions recorded)

/-! ### Concrete fixtures used by witness theorems -/
/-- A zero-amount transaction fixture. -/
def txnZero : Txn :=
  { id := "t0".toList, date := ⟨2024, 2, 10⟩, amount := 0,
    description := "PAGAMENTO".toList, txnType := "debit".toList,
    reference := [], source := "csv".toList }
/-- A receivable-side candidate fixture. -/
def candR : Candidate :=
  { id := "ar-9".toList, amount := 100, resolvedDate := some ⟨2024, 2, 10⟩,
    customer_name := "CLIENTE".toList, supplier_name := [],
    invoice_number := "4521".toList }
/-- A matcher configured with a 0.7 similarity floor, for the tie witness. -/
def mTie : FuzzyMatcher := { defaultMatcher with similarity_threshold := 7 / 10 }
/-- A transaction fixture with an empty description. -/
def txnTie : Txn :=
  { id := "t1".toList, date := ⟨2024, 2, 10⟩, amount := 100,
    description := [], txnType := "credit".toList, reference := [],
    source := "csv".toList }
/-- A family of candidate fixtures differing only in their id. -/
def tieCand (cid : Str) : Candidate :=
  { id := cid, amount := 100, resolvedDate := some ⟨2024, 2, 10⟩,
    customer_name := [], supplier_name := [], invoice_number := [] }

/-- Unpack a parser result, defaulting to no transactions on error. -/
def okOrNil (r : Except Str (List Txn)) : List Txn :=
  match r with
  | Except.ok l => l
  | Except.error _ => []

/-- A CSV statement file whose second and third data rows are identical
and whose first row is dated after the others. -/
def csvDupFile : Str :=
  ("data,valor,descricao\n02/01/2024,100,PIX A\n" ++
    "01/01/2024,50,TED B\n01/01/2024,50,TED B").toList

/-- A zero-byte upload with a `.csv` filename. -/
def emptyCsvUpload : UploadFile := ⟨"extrato.csv".toList, []⟩

/-- The full score record `find_best_match` computes for one
transaction/candidate pair (the transaction amount is passed as its
absolute value and the description normalized, as in the loop). -/
def scoreDataOf (m : FuzzyMatcher) (o : SimilarityOracles) (txn : Txn)
    (candidate : Candidate) : ScoreData :=
  calculate_match_score m o txn candidate |txn.amount|
    (normalize_description txn.description)

/-! ## Claims -/

/-- Unfolds the default matcher's tolerance fields. -/
theorem defaultMatcher_fields :
    defaultMatcher.amount_tolerance_percent = 2 / 100 ∧
    defaultMatcher.amount_tolerance_absolute = 10 ∧
    defaultMatcher.date_tolerance_before = 5 ∧
    defaultMatcher.date_tolerance_after = 10 ∧
    defaultMatcher.similarity_threshold = 8 / 10 := by
  refine ⟨rfl, rfl, rfl, rfl, rfl⟩

/-- C1, counterexample: with the configured tolerances (absolute R$10,
2%), the pair (10010.01, 10000.00) has an amount difference exactly one
cent beyond the absolute tolerance, yet its amount score is 0.984985,
strictly above 0.95 — not strictly lower as the claim demands. -/
theorem C1_counterexample :
    |(1001001 / 100 : ℚ) - 10000| = defaultMatcher.amount_tolerance_absolute + 1 / 100 ∧
    95 / 100 < calculate_amount_score defaultMatcher (1001001 / 100) 10000 := by
  constructor
  · show |(1001001 / 100 : ℚ) - 10000| = 10 + 1 / 100
    rw [show (1001001 / 100 : ℚ) - 10000 = 1001 / 100 by norm_num]
    rw [abs_of_nonneg (by norm_num)]
    norm_num
  · norm_num [calculate_amount_score, defaultMatcher, FuzzyMatcher.ofSettings,
      defaultSettings]
    rw [abs_of_nonneg (by norm_num)]
    norm_num

/-- C1 (amended): an amount difference exactly at the absolute tolerance
(R$10) scores 0.95; a difference one cent beyond it scores strictly lower
than 0.95 exactly when the candidate amount is below R$3003.00 (that is,
when the percentage difference exceeds 1/300); at or above R$3003.00 the
percentage branch yields a score of at least 0.95. -/
theorem C1_amended_boundary (txn cand : ℚ) (h0 : cand ≠ 0) :
    (|txn - cand| = 10 → calculate_amount_score defaultMatcher txn cand = 95 / 100) ∧
    (0 < cand → |txn - cand| = 10 + 1 / 100 →
      (calculate_amount_score defaultMatcher txn cand < 95 / 100 ↔ cand < 3003)) := by
  constructor
  · intro habs
    simp only [calculate_amount_score, defaultMatcher, FuzzyMatcher.ofSettings,
      defaultSettings, if_neg h0, habs]
    norm_num
  · intro hc habs
    simp only [calculate_amount_score, defaultMatcher, FuzzyMatcher.ofSettings,
      defaultSettings, if_neg h0, habs]
    norm_num
    rcases le_or_lt ((1001 / 100) / cand) (1 / 50) with hp | hp
    · rw [if_pos hp, max_eq_right (by linarith [hp])]
      constructor
      · intro hlt
        have h2 : (1 / 300 : ℚ) < 1001 / 100 / cand := by linarith
        rw [lt_div_iff₀ hc] at h2
        linarith
      · intro hlt
        have h2 : (1 / 300 : ℚ) < 1001 / 100 / cand := by
          rw [lt_div_iff₀ hc]; linarith
        linarith
    · rw [if_neg (not_le.mpr hp)]
      have hq : (0 : ℚ) < 1001 / 100 / cand := by positivity
      have hm : (0 : ℚ) ≤ (3 : ℚ) / 10 ⊓ (1001 / 100 / cand) :=
        le_min (by norm_num) hq.le
      have hcc : cand < 3003 := by
        rw [lt_div_iff₀ hc] at hp
        linarith
      constructor
      · intro _; exact hcc
      · intro _
        calc (3 : ℚ) / 10 - (3 : ℚ) / 10 ⊓ (1001 / 100 / cand) ≤ 3 / 10 := by linarith
        _ < 19 / 20 := by norm_num

/-- Witness for `C1_amended_boundary` at the pair (110, 100): the boundary
difference of exactly R$10 scores 0.95, and one cent beyond (difference
10.01 against candidate 100 < 3003) scores strictly below 0.95. -/
theorem C1_witness :
    calculate_amount_score defaultMatcher 110 100 = 95 / 100 ∧
    calculate_amount_score defaultMatcher (11001 / 100) 100 < 95 / 100 := by
  constructor
  · exact (C1_amended_boundary 110 100 (by norm_num)).1
      (by rw [show (110 : ℚ) - 100 = 10 by norm_num, abs_of_nonneg (by norm_num)])
  · exact ((C1_amended_boundary (11001 / 100) 100 (by norm_num)).2 (by norm_num)
      (by rw [show (11001 / 100 : ℚ) - 100 = 1001 / 100 by norm_num,
        abs_of_nonneg (by norm_num)]; norm_num)).mpr (by norm_num)

/-- C3, counterexample: the claim fails in two ways. For the pair
(105, 100) the percentage difference 5% exceeds the 2% tolerance, yet the
amount score is 0.95 (the absolute-tolerance branch fires first), not the
residual max(0, 0.3 − pct_diff) = 0.25. For the pair (300, 100) the
residual branch does fire and returns exactly 0, contradicting "never
exactly 0". -/
theorem C3_counterexample :
    (defaultMatcher.amount_tolerance_percent < |(105 : ℚ) - 100| / 100 ∧
      calculate_amount_score defaultMatcher 105 100 = 95 / 100 ∧
      max 0 (3 / 10 - |(105 : ℚ) - 100| / 100) = 25 / 100) ∧
    (defaultMatcher.amount_tolerance_percent < |(300 : ℚ) - 100| / 100 ∧
      calculate_amount_score defaultMatcher 300 100 = 0) := by
  have h5 : |(105 : ℚ) - 100| = 5 := by
    rw [show (105 : ℚ) - 100 = 5 by norm_num, abs_of_nonneg (by norm_num)]
  have h200 : |(300 : ℚ) - 100| = 200 := by
    rw [show (300 : ℚ) - 100 = 200 by norm_num, abs_of_nonneg (by norm_num)]
  refine ⟨⟨?_, ?_, ?_⟩, ?_, ?_⟩
  · rw [h5]; norm_num [defaultMatcher, FuzzyMatcher.ofSettings, defaultSettings]
  · norm_num [calculate_amount_score, defaultMatcher, FuzzyMatcher.ofSettings,
      defaultSettings, h5]
  · rw [h5]; norm_num
  · rw [h200]; norm_num [defaultMatcher, FuzzyMatcher.ofSettings, defaultSettings]
  · norm_num [calculate_amount_score, defaultMatcher, FuzzyMatcher.ofSettings,
      defaultSettings, h200]

/-- C3 (amended): when the absolute difference exceeds the absolute
tolerance AND the percentage difference exceeds the percentage tolerance,
the amount score equals the residual max(0, 0.3 − pct_diff); that residual
is exactly 0 whenever the percentage difference reaches 0.3. -/
theorem C3_amended_residual (txn cand : ℚ) (h0 : cand ≠ 0)
    (habs : defaultMatcher.amount_tolerance_absolute < |txn - cand|)
    (hpct : defaultMatcher.amount_tolerance_percent < |txn - cand| / cand) :
    calculate_amount_score defaultMatcher txn cand =
      max 0 (3 / 10 - |txn - cand| / cand) ∧
    (3 / 10 ≤ |txn - cand| / cand → calculate_amount_score defaultMatcher txn cand = 0) := by
  have habs10 : (10 : ℚ) < |txn - cand| := habs
  have hpct2 : (2 : ℚ) / 100 < |txn - cand| / cand := hpct
  have hne : ¬ (|txn - cand| = 0) := by intro h; rw [h] at habs10; norm_num at habs10
  have hgt : ¬ (|txn - cand| ≤ defaultMatcher.amount_tolerance_absolute) :=
    not_le.mpr habs
  have hgp : ¬ (|txn - cand| / cand ≤ defaultMatcher.amount_tolerance_percent) :=
    not_le.mpr hpct
  have hmain : calculate_amount_score defaultMatcher txn cand =
      max 0 (3 / 10 - min (3 / 10) (|txn - cand| / cand)) := by
    simp only [calculate_amount_score, if_neg h0, if_neg hne, if_neg hgt, if_neg hgp]
  constructor
  · rw [hmain]
    rcases le_or_lt (|txn - cand| / cand) (3 / 10) with hm | hm
    · rw [min_eq_right hm]
    · rw [min_eq_left hm.le]
      rw [max_eq_left (by norm_num), max_eq_left (by linarith)]
  · intro h3
    rw [hmain, min_eq_left h3, max_eq_left (by norm_num)]

/-- Witness for `C3_amended_residual` at the pair (300, 100): both
tolerances are exceeded, the score equals the residual formula, and —
since the percentage difference is 2 ≥ 0.3 — that score is exactly 0. -/
theorem C3_witness :
    calculate_amount_score defaultMatcher 300 100 =
      max 0 (3 / 10 - |(300 : ℚ) - 100| / 100) ∧
    calculate_amount_score defaultMatcher 300 100 = 0 := by
  have h200 : |(300 : ℚ) - 100| = 200 := by
    rw [show (300 : ℚ) - 100 = 200 by norm_num, abs_of_nonneg (by norm_num)]
  have h := C3_amended_residual 300 100 (by norm_num)
    (by rw [h200]; norm_num [defaultMatcher, FuzzyMatcher.ofSettings, defaultSettings])
    (by rw [h200]; norm_num [defaultMatcher, FuzzyMatcher.ofSettings, defaultSettings])
  exact ⟨h.1, h.2 (by rw [h200]; norm_num)⟩

/-- C9: the date score is symmetric (it only sees the absolute day
difference), and the `date_tolerance_before` value stored at construction
never affects any score. -/
theorem C9_date_score_symmetric (m : FuzzyMatcher) (b : ℤ) (d1 d2 e1 e2 : PyDate) :
    calculate_date_score m d1 (some d2) = calculate_date_score m d2 (some d1) ∧
    calculate_date_score { m with date_tolerance_before := b } d1 (some d2) =
      calculate_date_score m d1 (some d2) ∧
    (|dateDaysDiff d1 d2| = |dateDaysDiff e1 e2| →
      calculate_date_score m d1 (some d2) = calculate_date_score m e1 (some e2)) := by
  refine ⟨?_, rfl, ?_⟩
  · have hsymm : |dateDaysDiff d1 d2| = |dateDaysDiff d2 d1| := by
      simp only [dateDaysDiff, abs_sub_comm]
    simp only [calculate_date_score, hsymm]
  · intro h
    simp only [calculate_date_score, h]

/-- Witness for `C9_date_score_symmetric`: concrete dates three days
apart on either side (2024-02-10 vs 2024-02-07, and 2024-02-04 vs
2024-02-07) get identical scores, and changing `date_tolerance_before`
changes nothing. -/
theorem C9_witness :
    calculate_date_score defaultMatcher ⟨2024, 2, 10⟩ (some ⟨2024, 2, 7⟩) =
      calculate_date_score defaultMatcher ⟨2024, 2, 7⟩ (some ⟨2024, 2, 10⟩) ∧
    calculate_date_score { defaultMatcher with date_tolerance_before := 999 }
        ⟨2024, 2, 10⟩ (some ⟨2024, 2, 7⟩) =
      calculate_date_score defaultMatcher ⟨2024, 2, 10⟩ (some ⟨2024, 2, 7⟩) ∧
    calculate_date_score defaultMatcher ⟨2024, 2, 10⟩ (some ⟨2024, 2, 7⟩) =
      calculate_date_score defaultMatcher ⟨2024, 2, 4⟩ (some ⟨2024, 2, 7⟩) := by
  have h := C9_date_score_symmetric defaultMatcher 999 ⟨2024, 2, 10⟩ ⟨2024, 2, 7⟩
    ⟨2024, 2, 4⟩ ⟨2024, 2, 7⟩
  exact ⟨h.1, h.2.1, h.2.2 (by decide)⟩

/-- C10: in automatic matching a transaction whose amount is exactly 0
takes the debit branch: it is scored against the payable candidate set
(the receivable set is irrelevant), and any match it produces has
match_type "payable". -/
theorem C10_zero_amount_payable (m : FuzzyMatcher) (o : SimilarityOracles) (ath : ℚ)
    (ar ar2 ap : List Candidate) (t : Txn) (hz : t.amount = 0) :
    match_for_txn m o ath ar ap t = match_for_txn m o ath ar2 ap t ∧
    ∀ mt, match_for_txn m o ath ar ap t = some mt →
      mt.match_type = "payable".toList := by
  have hlt : ¬ (0 < t.amount) := by rw [hz]; exact lt_irrefl 0
  constructor
  · simp only [match_for_txn, if_neg hlt]
  · intro mt hmt
    simp only [match_for_txn, if_neg hlt] at hmt
    rcases hfind : find_best_match m o t ap with _ | b
    · simp only [hfind] at hmt
      exact Option.noConfusion hmt
    · simp only [hfind] at hmt
      split_ifs at hmt
      obtain rfl := Option.some.inj hmt
      rfl



/-- Witness for `C10_zero_amount_payable` at the zero-amount fixture:
swapping the receivable candidate set does not change the outcome. -/
theorem C10_witness :
    match_for_txn defaultMatcher zeroOracles (95 / 100) [] [] txnZero =
      match_for_txn defaultMatcher zeroOracles (95 / 100) [candR] [] txnZero :=
  (C10_zero_amount_payable defaultMatcher zeroOracles (95 / 100) [] [candR] []
    txnZero rfl).1

/-- The `find_best_match` fold only ever stores a candidate whose total
score reaches the similarity threshold. -/
theorem fbm_foldl_threshold (m : FuzzyMatcher) (o : SimilarityOracles) (txn : Txn)
    (ta : ℚ) (td : Str) :
    ∀ (cs : List Candidate) (acc : Option BestMatch × ℚ),
      (∀ b, acc.1 = some b → m.similarity_threshold ≤ b.confidence) →
      ∀ b, (cs.foldl (fbmStep m o txn ta td) acc).1 = some b →
        m.similarity_threshold ≤ b.confidence := by
  intro cs
  induction cs with
  | nil => exact fun acc hacc b hb => hacc b hb
  | cons c cs ih =>
    intro acc hacc b hb
    refine ih _ ?_ b hb
    intro b' hb'
    simp only [fbmStep] at hb'
    split_ifs at hb' with hcond
    · have hinj : (⟨c, (calculate_match_score m o txn c ta td).total_score,
          (calculate_match_score m o txn c ta td).primary_reason⟩ : BestMatch) = b' :=
        Option.some.inj hb'
      rw [← hinj]
      exact hcond.2
    · exact hacc b' hb'

/-- A best match returned by `find_best_match` has confidence at or above
the similarity threshold. -/
theorem fbm_some_threshold (m : FuzzyMatcher) (o : SimilarityOracles) (txn : Txn)
    (cs : List Candidate) (bm : BestMatch) (h : find_best_match m o txn cs = some bm) :
    m.similarity_threshold ≤ bm.confidence := by
  rw [find_best_match] at h
  exact fbm_foldl_threshold m o txn _ _ cs (none, 0) (fun b hb => by cases hb) bm h

/-- C8: a `TransactionMatch` is recorded for a transaction exactly when the
scorer returns a best candidate whose confidence reaches the auto-match
threshold; the scorer itself only returns candidates at or above the
similarity floor; and a best confidence below the auto-match threshold (or
no best candidate at all) leaves the transaction unmatched. -/
theorem C8_auto_match_iff (m : FuzzyMatcher) (o : SimilarityOracles) (ath : ℚ)
    (ar ap : List Candidate) (t : Txn) :
    (∀ bm, find_best_match m o t (if 0 < t.amount then ar else ap) = some bm →
      m.similarity_threshold ≤ bm.confidence ∧
      (ath ≤ bm.confidence →
        match_for_txn m o ath ar ap t =
          some ⟨t.id, bm.invoice.id, bm.confidence,
            if 0 < t.amount then "receivable".toList else "payable".toList,
            |t.amount|, bm.reason⟩) ∧
      (bm.confidence < ath → match_for_txn m o ath ar ap t = none)) ∧
    (find_best_match m o t (if 0 < t.amount then ar else ap) = none →
      match_for_txn m o ath ar ap t = none) := by
  constructor
  · intro bm hbm
    refine ⟨fbm_some_threshold m o t _ bm hbm, ?_, ?_⟩
    · intro hge
      simp only [match_for_txn, hbm]
      rw [if_pos hge]
    · intro hlt
      simp only [match_for_txn, hbm]
      rw [if_neg (not_le.mpr hlt)]
  · intro hnone
    simp only [match_for_txn, hnone]

/-- Witness for `C8_auto_match_iff`: for the zero-amount fixture with no
payable candidates the scorer returns nothing, so no match is recorded. -/
theorem C8_witness :
    match_for_txn defaultMatcher zeroOracles (95 / 100) [candR] [] txnZero = none :=
  (C8_auto_match_iff defaultMatcher zeroOracles (95 / 100) [candR] [] txnZero).2 rfl

/-- If every remaining candidate scores at most the best score already
held, the `find_best_match` fold leaves its accumulator untouched. -/
theorem fbm_foldl_stable (m : FuzzyMatcher) (o : SimilarityOracles) (txn : Txn)
    (ta : ℚ) (td : Str) (cs : List Candidate) (acc : Option BestMatch × ℚ)
    (hall : ∀ x ∈ cs, (calculate_match_score m o txn x ta td).total_score ≤ acc.2) :
    cs.foldl (fbmStep m o txn ta td) acc = acc := by
  induction cs generalizing acc with
  | nil => rfl
  | cons c cs ih =>
    have hc := hall c (List.mem_cons_self c cs)
    have hstep : fbmStep m o txn ta td acc c = acc := by
      simp only [fbmStep]
      rw [if_neg]
      intro hcond
      exact absurd hcond.1 (not_lt.mpr hc)
    rw [List.foldl_cons, hstep]
    exact ih acc fun x hx => hall x (List.mem_cons_of_mem c hx)

/-- The `find_best_match` fold lands on the first candidate attaining the
maximal score `M`, provided `M` reaches the threshold and beats the
accumulator. -/
theorem fbm_foldl_first_max (m : FuzzyMatcher) (o : SimilarityOracles) (txn : Txn)
    (ta : ℚ) (td : Str) (M : ℚ) (hth : m.similarity_threshold ≤ M) :
    ∀ (pre : List Candidate) (c : Candidate) (post : List Candidate)
      (acc : Option BestMatch × ℚ), acc.2 < M →
      (∀ x ∈ pre, (calculate_match_score m o txn x ta td).total_score < M) →
      (calculate_match_score m o txn c ta td).total_score = M →
      (∀ x ∈ post, (calculate_match_score m o txn x ta td).total_score ≤ M) →
      (pre ++ c :: post).foldl (fbmStep m o txn ta td) acc =
        (some ⟨c, M, (calculate_match_score m o txn c ta td).primary_reason⟩, M) := by
  intro pre
  induction pre with
  | nil =>
    intro c post acc hacc _ hc hpost
    simp only [List.nil_append, List.foldl_cons]
    have hstep : fbmStep m o txn ta td acc c =
        (some ⟨c, M, (calculate_match_score m o txn c ta td).primary_reason⟩, M) := by
      simp only [fbmStep, hc]
      rw [if_pos ⟨hacc, hth⟩]
    rw [hstep]
    exact fbm_foldl_stable m o txn ta td post _ fun x hx => hpost x hx
  | cons p pre ih =>
    intro c post acc hacc hpre hc hpost
    simp only [List.cons_append, List.foldl_cons]
    have hp := hpre p (List.mem_cons_self p pre)
    have hacc' : (fbmStep m o txn ta td acc p).2 < M := by
      simp only [fbmStep]
      split_ifs with hcond
      · exact hp
      · exact hacc
    exact ih c post (fbmStep m o txn ta td acc p) hacc'
      (fun x hx => hpre x (List.mem_cons_of_mem p hx)) hc hpost

/-- C6: when the candidate list is `pre ++ c :: post` with every earlier
candidate scoring strictly below the maximal score `M`, `c` attaining `M`,
and every later candidate scoring at most `M` (so in particular any number
of later candidates may tie at `M`), and `M` reaches the similarity floor,
`find_best_match` returns `c` — the first candidate in the supplied
ordering attaining the maximum. `find_best_match` is a pure function of
its arguments, so this selection is reproducible across runs. -/
theorem C6_tie_first_candidate (m : FuzzyMatcher) (o : SimilarityOracles) (txn : Txn)
    (pre post : List Candidate) (c : Candidate) (M : ℚ)
    (hpre : ∀ x ∈ pre, totalScoreOf m o txn x < M)
    (hc : totalScoreOf m o txn c = M)
    (hpost : ∀ x ∈ post, totalScoreOf m o txn x ≤ M)
    (hth : m.similarity_threshold ≤ M) (hpos : 0 < M) :
    find_best_match m o txn (pre ++ c :: post) =
      some ⟨c, M, (calculate_match_score m o txn c |txn.amount|
        (normalize_description txn.description)).primary_reason⟩ := by
  rw [find_best_match,
    fbm_foldl_first_max m o txn |txn.amount| (normalize_description txn.description)
      M hth pre c post (none, 0) hpos hpre hc hpost]




/-- Every `tieCand` scores exactly 0.775 against `txnTie` under the zero
oracles: amount 1.0, date 1.0, description 0.3 (missing description),
reference 0.5 (no tokens). -/
theorem tie_score_eval (cid : Str) :
    totalScoreOf mTie zeroOracles txnTie (tieCand cid) = 31 / 40 := by
  simp only [totalScoreOf, calculate_match_score, calculate_amount_score,
    calculate_date_score, calculate_description_score, calculate_reference_score,
    normalize_description, zeroOracles, txnTie, tieCand, mTie, defaultMatcher,
    FuzzyMatcher.ofSettings, defaultSettings, dateDaysDiff]
  norm_num

/-- Witness for `C6_tie_first_candidate`: two candidates tie at the
maximal score 0.775 ≥ floor 0.7; the first of the two is selected. -/
theorem C6_witness :
    find_best_match mTie zeroOracles txnTie
      [tieCand "a-1".toList, tieCand "a-2".toList] =
      some ⟨tieCand "a-1".toList, 31 / 40,
        (calculate_match_score mTie zeroOracles txnTie (tieCand "a-1".toList)
          |txnTie.amount| (normalize_description txnTie.description)).primary_reason⟩ := by
  have h := C6_tie_first_candidate mTie zeroOracles txnTie [] [tieCand "a-2".toList]
    (tieCand "a-1".toList) (31 / 40)
    (by intro x hx; cases hx)
    (tie_score_eval "a-1".toList)
    (by
      intro x hx
      rcases List.mem_singleton.mp hx with rfl
      rw [tie_score_eval "a-2".toList])
    (by norm_num [mTie, defaultMatcher, FuzzyMatcher.ofSettings, defaultSettings])
    (by norm_num)
  simpa using h

/-- The amount score lies in [0, 1] for any nonnegative candidate amount. -/
theorem amount_score_bounds (txn cand : ℚ) (hc : 0 ≤ cand) :
    0 ≤ calculate_amount_score defaultMatcher txn cand ∧
    calculate_amount_score defaultMatcher txn cand ≤ 1 := by
  rcases eq_or_lt_of_le hc with heq | hpos
  · rw [calculate_amount_score, if_pos heq.symm]
    norm_num
  · have h0 : cand ≠ 0 := ne_of_gt hpos
    simp only [calculate_amount_score, if_neg h0, defaultMatcher,
      FuzzyMatcher.ofSettings, defaultSettings]
    have habs : 0 ≤ |txn - cand| := abs_nonneg _
    have hpct : 0 ≤ |txn - cand| / cand := div_nonneg habs hpos.le
    split_ifs with h1 h2 h3
    · norm_num
    · norm_num
    · constructor
      · exact le_max_left 0 _
      · refine max_le (by norm_num) ?_
        have hterm : 0 ≤ |txn - cand| / cand / (2 / 100) * (3 / 10) := by positivity
        linarith
    · constructor
      · exact le_max_left 0 _
      · refine max_le (by norm_num) ?_
        have hm : 0 ≤ min (3 / 10 : ℚ) (|txn - cand| / cand) := le_min (by norm_num) hpct
        linarith

/-- The date score lies in [0, 1] for any matcher configuration. -/
theorem date_score_bounds (m : FuzzyMatcher) (d : PyDate) (cd : Option PyDate) :
    0 ≤ calculate_date_score m d cd ∧ calculate_date_score m d cd ≤ 1 := by
  cases cd with
  | none => norm_num [calculate_date_score]
  | some c =>
    simp only [calculate_date_score]
    have habs : (0 : ℤ) ≤ |dateDaysDiff d c| := abs_nonneg _
    split_ifs with h1 h2 h3 h4
    · norm_num
    · norm_num
    · norm_num
    · constructor
      · exact le_max_left 0 _
      · refine max_le (by norm_num) ?_
        have h8 : (8 : ℤ) ≤ |dateDaysDiff d c| := by omega
        have h8q : (8 : ℚ) ≤ ((|dateDaysDiff d c| : ℤ) : ℚ) := by exact_mod_cast h8
        linarith
    · constructor
      · exact le_max_left 0 _
      · refine max_le (by norm_num) ?_
        have hq : (0 : ℚ) ≤ ((|dateDaysDiff d c| : ℤ) : ℚ) := by exact_mod_cast habs
        have hm : 0 ≤ min (2 / 10 : ℚ) (((|dateDaysDiff d c| : ℤ) : ℚ) * (1 / 100)) :=
          le_min (by norm_num) (by linarith)
        linarith

/-- The keyword bonus lies in [0, 0.2]. -/
theorem keyword_bonus_bounds (a b : Str) :
    0 ≤ calculate_keyword_bonus a b ∧ calculate_keyword_bonus a b ≤ 2 / 10 := by
  constructor
  · exact le_min (by norm_num) (by positivity)
  · exact min_le_left _ _

/-- The description score lies in [0, 1] whenever the similarity ratios
respect their documented ranges. -/
theorem description_score_bounds (o : SimilarityOracles) (hb : OraclesBounded o)
    (a b : Str) :
    0 ≤ calculate_description_score o a b ∧ calculate_description_score o a b ≤ 1 := by
  simp only [calculate_description_score]
  split_ifs with h
  · norm_num
  · have hf := (hb a b).1
    have hbonus := keyword_bonus_bounds a b
    constructor
    · refine le_min (by norm_num) ?_
      have hbest : (0 : ℚ) ≤ max (o.ratioFull a b)
          (max (o.ratioSubstr a b) (max (o.ratioTokenSort a b)
            (max (o.ratioTokenSet a b) (o.ratioSeq a b)))) :=
        le_trans hf.1 (le_max_left _ _)
      linarith [hbonus.1]
    · exact min_le_left _ _

/-- Values produced by the inner reference-token loop stay in [0, 1]. -/
theorem refMatchInner_bounds (ratio : Str → Str → ℚ)
    (hr : ∀ a b, 0 ≤ ratio a b ∧ ratio a b ≤ 1) (t : Str) :
    ∀ (cs : List Str) (v : ℚ), refMatchInner ratio t cs = some v → 0 ≤ v ∧ v ≤ 1 := by
  intro cs
  induction cs with
  | nil => intro v h; cases h
  | cons c cs ih =>
    intro v h
    simp only [refMatchInner] at h
    split_ifs at h with h1 h2 h3
    · obtain rfl := Option.some.inj h
      norm_num
    · obtain rfl := Option.some.inj h
      exact hr t c
    · exact ih v h
    · exact ih v h

/-- Values produced by the outer reference-token loop stay in [0, 1]. -/
theorem refMatchOuter_bounds (ratio : Str → Str → ℚ)
    (hr : ∀ a b, 0 ≤ ratio a b ∧ ratio a b ≤ 1) (cand_ref : List Str) :
    ∀ (ts : List Str) (v : ℚ), refMatchOuter ratio cand_ref ts = some v →
      0 ≤ v ∧ v ≤ 1 := by
  intro ts
  induction ts with
  | nil => intro v h; cases h
  | cons t ts ih =>
    intro v h
    simp only [refMatchOuter] at h
    rcases hin : refMatchInner ratio t cand_ref with _ | w
    · rw [hin] at h
      exact ih v h
    · rw [hin] at h
      obtain rfl := Option.some.inj h
      exact refMatchInner_bounds ratio hr t cand_ref w hin

/-- The reference score lies in [0, 1] whenever the similarity ratios
respect their documented ranges. -/
theorem reference_score_bounds (o : SimilarityOracles) (hb : OraclesBounded o)
    (t : Txn) (c : Candidate) :
    0 ≤ calculate_reference_score o t c ∧ calculate_reference_score o t c ≤ 1 := by
  simp only [calculate_reference_score]
  split_ifs with h
  · norm_num
  · rcases houter : refMatchOuter o.ratioFull
        (o.extractRefs (c.invoice_number ++ [' '] ++ c.id))
        (o.extractRefs (t.description ++ [' '] ++ t.reference)) with _ | v
    · rw [Option.getD_none]
      norm_num
    · rw [Option.getD_some]
      exact refMatchOuter_bounds o.ratioFull
        (fun a b => ⟨((hb a b).1).1, ((hb a b).1).2⟩) _ _ v houter

/-- C5: when the external similarity ratios respect their documented
[0, 1] ranges and the candidate amount is nonnegative (candidate amounts
are unsigned invoice amounts), every component score and the weighted
total computed by the scorer lie in [0, 1]. -/
theorem C5_score_bounds (o : SimilarityOracles) (hb : OraclesBounded o)
    (t : Txn) (c : Candidate) (hc : 0 ≤ c.amount) :
    (0 ≤ (scoreDataOf defaultMatcher o t c).amount_score ∧
      (scoreDataOf defaultMatcher o t c).amount_score ≤ 1) ∧
    (0 ≤ (scoreDataOf defaultMatcher o t c).date_score ∧
      (scoreDataOf defaultMatcher o t c).date_score ≤ 1) ∧
    (0 ≤ (scoreDataOf defaultMatcher o t c).description_score ∧
      (scoreDataOf defaultMatcher o t c).description_score ≤ 1) ∧
    (0 ≤ (scoreDataOf defaultMatcher o t c).reference_score ∧
      (scoreDataOf defaultMatcher o t c).reference_score ≤ 1) ∧
    (0 ≤ (scoreDataOf defaultMatcher o t c).total_score ∧
      (scoreDataOf defaultMatcher o t c).total_score ≤ 1) := by
  have ha := amount_score_bounds |t.amount| c.amount hc
  have hd := date_score_bounds defaultMatcher t.date c.resolvedDate
  have hde := description_score_bounds o hb (normalize_description t.description)
    (normalize_description (c.customer_name ++ [' '] ++ c.supplier_name ++ [' '] ++
      c.invoice_number))
  have hr := reference_score_bounds o hb t c
  simp only [scoreDataOf, calculate_match_score]
  refine ⟨ha, hd, hde, hr, ?_, ?_⟩
  · have := ha.1; have := hd.1; have := hde.1; have := hr.1
    positivity
  · nlinarith [ha.1, ha.2, hd.1, hd.2, hde.1, hde.2, hr.1, hr.2]

/-- Witness for `C5_score_bounds` under the all-zero oracles (which respect
the ranges) at the tie fixtures: all component scores and the total are in
[0, 1]. -/
theorem C5_witness :
    0 ≤ (scoreDataOf defaultMatcher zeroOracles txnTie (tieCand "a-1".toList)).total_score ∧
    (scoreDataOf defaultMatcher zeroOracles txnTie (tieCand "a-1".toList)).total_score ≤ 1 :=
  (C5_score_bounds zeroOracles
    (fun _ _ => by norm_num [zeroOracles]) txnTie (tieCand "a-1".toList)
    (by norm_num [tieCand])).2.2.2.2

/-- C2, counterexample: parsing a CSV file whose second and third rows are
identical (same date, amount and description — hence identical
description-prefix) and whose first row carries the latest date yields
three transactions: the duplicates are NOT collapsed (two distinct list
entries share the full (date, amount, description) triple) and the list is
NOT ordered by date ascending (the first transaction's date exceeds the
second's). -/
theorem C2_counterexample :
    (okOrNil (parse_csv_file csvDupFile)).length = 3 ∧
    ((okOrNil (parse_csv_file csvDupFile)).getD 1 txnZero).date =
      ((okOrNil (parse_csv_file csvDupFile)).getD 2 txnZero).date ∧
    ((okOrNil (parse_csv_file csvDupFile)).getD 1 txnZero).amount =
      ((okOrNil (parse_csv_file csvDupFile)).getD 2 txnZero).amount ∧
    ((okOrNil (parse_csv_file csvDupFile)).getD 1 txnZero).description =
      ((okOrNil (parse_csv_file csvDupFile)).getD 2 txnZero).description ∧
    ((okOrNil (parse_csv_file csvDupFile)).getD 1 txnZero).date.toOrdinal <
      ((okOrNil (parse_csv_file csvDupFile)).getD 0 txnZero).date.toOrdinal := by
  refine ⟨?_, ?_, ?_, ?_, ?_⟩ <;> decide

/-- C2 (amended): the CSV row loop neither deduplicates nor sorts:
appending one more data row to the file appends exactly that row's
transaction (if it parses) at the end of the returned list, leaving all
earlier transactions — including any identical ones — in file order. -/
theorem C2_amended_row_append (mp : ColumnMapping) (i : ℕ) (rows : List (List Str))
    (r : List Str) :
    parseRowsFrom mp i (rows ++ [r]) =
      parseRowsFrom mp i rows ++ (csvRowToTxn mp (i + rows.length) r).toList := by
  induction rows generalizing i with
  | nil =>
    cases h : csvRowToTxn mp i r <;>
      simp [parseRowsFrom, h]
  | cons x rows ih =>
    rw [show i + (x :: rows).length = i + 1 + rows.length from by
      simp only [List.length_cons]; omega]
    cases h : csvRowToTxn mp i x <;>
      simp [parseRowsFrom, h, ih (i + 1)]

/-- C4 (code bug): the engine's `process_bank_statement` never calls
`validate_statement_file`. On a zero-byte `.csv` upload the validator
would reject with the validation error "Arquivo vazio", but the engine
instead hands the empty file straight to the parser, whose failure
("No columns to parse from file", the pandas `EmptyDataError`) becomes the
run's error; parsing is attempted, the rejection is a parse error rather
than a validation error, and no report is produced. -/
theorem C4_validation_skipped :
    validate_statement_file false emptyCsvUpload.filename emptyCsvUpload.content =
      ⟨false, some "Arquivo vazio".toList⟩ ∧
    validate_statement_file true emptyCsvUpload.filename emptyCsvUpload.content =
      ⟨false, some "Arquivo vazio".toList⟩ ∧
    process_bank_statement defaultMatcher zeroOracles (95 / 100) emptyCsvUpload
        "acc-1".toList [] [] =
      EngineResult.errorResult "No columns to parse from file".toList := by
  refine ⟨?_, ?_, ?_⟩ <;> decide


theorem splitOnChar_of_not_mem (sep : Char) (a : Str) (ha : sep ∉ a) :
    splitOnChar sep a = [a] := by
  induction a with
  | nil => rfl
  | cons c cs ih =>
    have hc : c ≠ sep := fun h => ha (h ▸ List.mem_cons_self c cs)
    have hcs : sep ∉ cs := fun h => ha (List.mem_cons_of_mem c h)
    simp only [splitOnChar, ih hcs, if_neg hc]

theorem splitOnChar_append_sep (sep : Char) (a b : Str) (ha : sep ∉ a) :
    splitOnChar sep (a ++ sep :: b) = a :: splitOnChar sep b := by
  induction a with
  | nil => simp [splitOnChar]
  | cons c cs ih =>
    have hc : c ≠ sep := fun h => ha (h ▸ List.mem_cons_self c cs)
    have hcs : sep ∉ cs := fun h => ha (List.mem_cons_of_mem c h)
    simp only [List.cons_append, splitOnChar, List.append_eq, ih hcs, if_neg hc]

theorem not_mem_of_allDigits (a : Str) (h : allDigits a = true) (c : Char)
    (hc : c.isDigit = false) : c ∉ a := by
  intro hm
  have hd := List.all_eq_true.mp h c hm
  rw [hd] at hc
  exact Bool.noConfusion hc

theorem contains_eq_true_iff (l : Str) (c : Char) : l.contains c = true ↔ c ∈ l := by
  simp [List.contains]

theorem allDigits_append_iff (a b : Str) :
    allDigits (a ++ b) = (allDigits a && allDigits b) := by
  simp [allDigits, List.all_append]

theorem filter_digits_id (p : Char → Bool) (a : Str) (h : ∀ c ∈ a, p c = true) :
    a.filter p = a := List.filter_eq_self.mpr h

theorem map_fix_digits (f : Char → Char) (a : Str) (h : ∀ c ∈ a, f c = c) :
    a.map f = a := by
  induction a with
  | nil => rfl
  | cons c cs ih =>
    simp only [List.map_cons, h c (List.mem_cons_self c cs),
      ih fun x hx => h x (List.mem_cons_of_mem c hx)]

theorem pyFloatBody_digits (a : Str) (h0 : a ≠ []) (hd : allDigits a = true) :
    pyFloatBody a = some ((natOfDigits a : ℚ)) := by
  have hdot : '.' ∉ a := not_mem_of_allDigits a hd '.' (by decide)
  simp only [pyFloatBody, splitOnChar_of_not_mem '.' a hdot]
  rw [if_pos ⟨h0, hd⟩]

theorem pyFloatBody_point (a b : Str) (ha : allDigits a = true) (hb : allDigits b = true)
    (h0 : a ≠ [] ∨ b ≠ []) :
    pyFloatBody (a ++ '.' :: b) =
      some ((natOfDigits a : ℚ) + (natOfDigits b : ℚ) / 10 ^ b.length) := by
  have hda : '.' ∉ a := not_mem_of_allDigits a ha '.' (by decide)
  have hdb : '.' ∉ b := not_mem_of_allDigits b hb '.' (by decide)
  simp only [pyFloatBody, splitOnChar_append_sep '.' a b hda,
    splitOnChar_of_not_mem '.' b hdb]
  rw [if_pos ⟨h0, ha, hb⟩]

theorem pyFloat_digit_head (c : Char) (cs : Str) (hd : c.isDigit = true) :
    pyFloat (c :: cs) = pyFloatBody (c :: cs) := by
  have h1 : ¬ ((c :: cs).headI = '-') := by
    intro h
    simp only [List.headI] at h
    rw [h] at hd
    exact Bool.noConfusion hd
  have h2 : ¬ ((c :: cs).headI = '+') := by
    intro h
    simp only [List.headI] at h
    rw [h] at hd
    exact Bool.noConfusion hd
  rw [pyFloat, if_neg (by simp), if_neg h1, if_neg h2]

theorem digit_ne_comma (c : Char) (hd : c.isDigit = true) : c ≠ ',' := by
  intro h
  rw [h] at hd
  exact Bool.noConfusion hd

theorem parse_amount_single_comma (a b : Str) (ha : allDigits a = true)
    (hb : allDigits b = true) (ha0 : a ≠ []) (_hb0 : b ≠ []) :
    parse_amount (a ++ ',' :: b) =
      if b.length ≤ 2 then
        some ((natOfDigits a : ℚ) + (natOfDigits b : ℚ) / 10 ^ b.length)
      else some ((natOfDigits (a ++ b) : ℚ)) := by
  have hclean : cleanAmountChars (a ++ ',' :: b) = a ++ ',' :: b := by
    apply List.filter_eq_self.mpr
    intro c hcm
    rcases List.mem_append.mp hcm with h | h
    · have hd := List.all_eq_true.mp ha c h
      simp [hd]
    · rcases List.mem_cons.mp h with rfl | h
      · simp
      · have hd := List.all_eq_true.mp hb c h
        simp [hd]
  have hcomma : (a ++ ',' :: b).contains ',' = true :=
    (contains_eq_true_iff _ _).mpr (List.mem_append_right a (List.mem_cons_self _ _))
  have hdotmem : '.' ∉ a ++ ',' :: b := by
    intro hm
    rcases List.mem_append.mp hm with h | h
    · exact not_mem_of_allDigits a ha '.' (by decide) h
    · rcases List.mem_cons.mp h with h | h
      · exact absurd h (by decide)
      · exact not_mem_of_allDigits b hb '.' (by decide) h
  have hdot : (a ++ ',' :: b).contains '.' = false :=
    Bool.eq_false_iff.mpr fun h => hdotmem ((contains_eq_true_iff _ _).mp h)
  have hca : ',' ∉ a :=
    fun h => digit_ne_comma ',' (List.all_eq_true.mp ha ',' h) rfl
  have hcb : ',' ∉ b :=
    fun h => digit_ne_comma ',' (List.all_eq_true.mp hb ',' h) rfl
  rw [parse_amount, hclean, resolveDecimalSeparators]
  rw [if_neg fun h => absurd h.2 (by rw [hdot]; exact Bool.false_ne_true)]
  rw [if_pos hcomma]
  simp only [splitOnChar_append_sep ',' a b hca, splitOnChar_of_not_mem ',' b hcb,
    List.length_cons, List.length_singleton, List.getD, List.getElem?_cons_succ,
    List.getElem?_cons_zero, Option.getD_some]
  by_cases hlen : b.length ≤ 2
  · rw [if_pos ⟨rfl, hlen⟩, if_pos hlen]
    have hmap : (a ++ ',' :: b).map (fun c => if c = ',' then '.' else c) =
        a ++ '.' :: b := by
      rw [List.map_append, List.map_cons]
      rw [map_fix_digits _ a fun c hcm => by
        simp [digit_ne_comma c (List.all_eq_true.mp ha c hcm)]]
      rw [map_fix_digits _ b fun c hcm => by
        simp [digit_ne_comma c (List.all_eq_true.mp hb c hcm)]]
      simp
    rw [hmap]
    obtain ⟨c, cs, rfl⟩ := List.exists_cons_of_ne_nil ha0
    rw [List.cons_append, pyFloat_digit_head c (cs ++ '.' :: b)
      (List.all_eq_true.mp ha c (List.mem_cons_self c cs)), ← List.cons_append]
    exact pyFloatBody_point (c :: cs) b ha hb (Or.inl ha0)
  · rw [if_neg fun hp => absurd hp.2 hlen, if_neg hlen]
    have hfil : (a ++ ',' :: b).filter (· ≠ ',') = a ++ b := by
      rw [List.filter_append, List.filter_cons]
      rw [filter_digits_id _ a fun c hcm => by
        simp [digit_ne_comma c (List.all_eq_true.mp ha c hcm)]]
      rw [filter_digits_id _ b fun c hcm => by
        simp [digit_ne_comma c (List.all_eq_true.mp hb c hcm)]]
      simp
    rw [hfil]
    obtain ⟨c, cs, rfl⟩ := List.exists_cons_of_ne_nil ha0
    rw [List.cons_append, pyFloat_digit_head c (cs ++ b)
      (List.all_eq_true.mp ha c (List.mem_cons_self c cs)), ← List.cons_append]
    refine pyFloatBody_digits ((c :: cs) ++ b) (by simp) ?_
    rw [allDigits_append_iff, ha, hb]
    rfl



theorem digit_ne_dot (c : Char) (hd : c.isDigit = true) : c ≠ '.' := by
  intro h
  rw [h] at hd
  exact Bool.noConfusion hd

theorem parse_amount_dot_comma (a b c : Str) (ha : allDigits a = true)
    (hb : allDigits b = true) (hc : allDigits c = true) (ha0 : a ≠ []) :
    parse_amount (a ++ '.' :: (b ++ ',' :: c)) =
      some ((natOfDigits (a ++ b) : ℚ) + (natOfDigits c : ℚ) / 10 ^ c.length) := by
  have hclean : cleanAmountChars (a ++ '.' :: (b ++ ',' :: c)) =
      a ++ '.' :: (b ++ ',' :: c) := by
    apply List.filter_eq_self.mpr
    intro x hxm
    rcases List.mem_append.mp hxm with h | h
    · have hd := List.all_eq_true.mp ha x h
      simp [hd]
    · rcases List.mem_cons.mp h with rfl | h
      · simp
      · rcases List.mem_append.mp h with h | h
        · have hd := List.all_eq_true.mp hb x h
          simp [hd]
        · rcases List.mem_cons.mp h with rfl | h
          · simp
          · have hd := List.all_eq_true.mp hc x h
            simp [hd]
  have hcomma : (a ++ '.' :: (b ++ ',' :: c)).contains ',' = true :=
    (contains_eq_true_iff _ _).mpr
      (List.mem_append_right a (List.mem_cons_of_mem '.'
        (List.mem_append_right b (List.mem_cons_self _ _))))
  have hdotc : (a ++ '.' :: (b ++ ',' :: c)).contains '.' = true :=
    (contains_eq_true_iff _ _).mpr
      (List.mem_append_right a (List.mem_cons_self _ _))
  rw [parse_amount, hclean, resolveDecimalSeparators, if_pos ⟨hcomma, hdotc⟩]
  have hfil : (a ++ '.' :: (b ++ ',' :: c)).filter (· ≠ '.') =
      a ++ (b ++ ',' :: c) := by
    rw [List.filter_append, List.filter_cons, List.filter_append, List.filter_cons]
    rw [filter_digits_id _ a fun x hxm => by
      simp [digit_ne_dot x (List.all_eq_true.mp ha x hxm)]]
    rw [filter_digits_id _ b fun x hxm => by
      simp [digit_ne_dot x (List.all_eq_true.mp hb x hxm)]]
    rw [filter_digits_id _ c fun x hxm => by
      simp [digit_ne_dot x (List.all_eq_true.mp hc x hxm)]]
    simp
  rw [hfil]
  have hmap : (a ++ (b ++ ',' :: c)).map (fun x => if x = ',' then '.' else x) =
      a ++ (b ++ '.' :: c) := by
    rw [List.map_append, List.map_append, List.map_cons]
    rw [map_fix_digits _ a fun x hxm => by
      simp [digit_ne_comma x (List.all_eq_true.mp ha x hxm)]]
    rw [map_fix_digits _ b fun x hxm => by
      simp [digit_ne_comma x (List.all_eq_true.mp hb x hxm)]]
    rw [map_fix_digits _ c fun x hxm => by
      simp [digit_ne_comma x (List.all_eq_true.mp hc x hxm)]]
    simp
  rw [hmap, show a ++ (b ++ '.' :: c) = (a ++ b) ++ '.' :: c from
    (List.append_assoc a b ('.' :: c)).symm]
  obtain ⟨d, ds, rfl⟩ := List.exists_cons_of_ne_nil ha0
  rw [List.cons_append, List.cons_append, pyFloat_digit_head d (ds ++ b ++ '.' :: c)
    (List.all_eq_true.mp ha d (List.mem_cons_self d ds)),
    ← List.cons_append, ← List.cons_append]
  refine pyFloatBody_point ((d :: ds) ++ b) c ?_ hc (Or.inl (by simp))
  rw [allDigits_append_iff, ha, hb]
  rfl


/-- C7: the CSV amount parser resolves Brazilian-locale separators:
"1.234,56" parses to 1234.56, "1234,56" to 1234.56 and "1,234" to 1234;
in general a value with both separators drops the dots and reads the comma
as the decimal point (whatever the fraction length), and a value with a
single comma reads it as the decimal point exactly when at most two digits
follow, otherwise as a thousands separator. -/
theorem C7_locale_amount_parsing :
    parse_amount "1.234,56".toList = some (123456 / 100) ∧
    parse_amount "1234,56".toList = some (123456 / 100) ∧
    parse_amount "1,234".toList = some 1234 ∧
    (∀ a b c : Str, allDigits a = true → allDigits b = true → allDigits c = true →
      a ≠ [] →
      parse_amount (a ++ '.' :: (b ++ ',' :: c)) =
        some ((natOfDigits (a ++ b) : ℚ) + (natOfDigits c : ℚ) / 10 ^ c.length)) ∧
    (∀ a b : Str, allDigits a = true → allDigits b = true → a ≠ [] → b ≠ [] →
      parse_amount (a ++ ',' :: b) =
        if b.length ≤ 2 then
          some ((natOfDigits a : ℚ) + (natOfDigits b : ℚ) / 10 ^ b.length)
        else some ((natOfDigits (a ++ b) : ℚ))) := by
  refine ⟨?_, ?_, ?_, parse_amount_dot_comma, parse_amount_single_comma⟩
  · rw [show "1.234,56".toList =
      "1".toList ++ '.' :: ("234".toList ++ ',' :: "56".toList) from by decide]
    rw [parse_amount_dot_comma "1".toList "234".toList "56".toList
      (by decide) (by decide) (by decide) (by decide)]
    have h1 : natOfDigits ("1".toList ++ "234".toList) = 1234 := by decide
    have h2 : natOfDigits "56".toList = 56 := by decide
    have h3 : ("56".toList).length = 2 := by decide
    rw [h1, h2, h3]
    norm_num
  · rw [show "1234,56".toList = "1234".toList ++ ',' :: "56".toList from by decide]
    rw [parse_amount_single_comma "1234".toList "56".toList
      (by decide) (by decide) (by decide) (by decide)]
    rw [if_pos (by decide : ("56".toList).length ≤ 2)]
    have h1 : natOfDigits "1234".toList = 1234 := by decide
    have h2 : natOfDigits "56".toList = 56 := by decide
    have h3 : ("56".toList).length = 2 := by decide
    rw [h1, h2, h3]
    norm_num
  · rw [show "1,234".toList = "1".toList ++ ',' :: "234".toList from by decide]
    rw [parse_amount_single_comma "1".toList "234".toList
      (by decide) (by decide) (by decide) (by decide)]
    rw [if_neg (by decide : ¬ ("234".toList).length ≤ 2)]
    have h1 : natOfDigits ("1".toList ++ "234".toList) = 1234 := by decide
    rw [h1]
    norm_num

/-- Witness for the general clauses of `C7_locale_amount_parsing` at the
single-comma value "1,5": one digit after the comma, so it parses as the
decimal 1.5. -/
theorem C7_witness :
    parse_amount ("1".toList ++ ',' :: "5".toList) = some (3 / 2) := by
  rw [C7_locale_amount_parsing.2.2.2.2 "1".toList "5".toList
    (by decide) (by decide) (by decide) (by decide)]
  rw [if_pos (by decide : ("5".toList).length ≤ 2)]
  have h1 : natOfDigits "1".toList = 1 := by decide
  have h2 : natOfDigits "5".toList = 5 := by decide
  have h3 : ("5".toList).length = 1 := by decide
  rw [h1, h2, h3]
  norm_num
